import Mathlib

/-!
Verification of the cargo physics engine (`physics_engine.py`).

The engine's numeric values are embedded as rationals (`ℚ`); Python's
`round(x, 2)` is modelled as exact rational rounding to two decimal places.
Warning strings are modelled symbolically: each message of
`generate_warnings` becomes a constructor of `WarningMsg` carrying the
numeric payloads that the Python f-string would interpolate.
-/

/-- A cargo item: identifier, weight and axis-aligned bounding-box
dimensions, mirroring the `cargo_data` dictionaries. -/
structure Cargo where
  cargo_id : Nat
  weight : ℚ
  length : ℚ
  width : ℚ
  height : ℚ
deriving DecidableEq, Repr

/-- A placement: cargo identifier, origin corner of the cargo box and a
rotation code, mirroring the `placements` dictionaries. -/
structure Placement where
  cargo_id : Nat
  position_x : ℚ
  position_y : ℚ
  position_z : ℚ
  rotation : Int
deriving DecidableEq, Repr

/-- Vehicle specification: capacity and interior envelope dimensions. -/
structure Vehicle where
  max_load : ℚ
  length : ℚ
  width : ℚ
  height : ℚ
deriving DecidableEq, Repr

/-- Center of gravity, the `{'x':…,'y':…,'z':…}` result dictionary. -/
structure COG where
  x : ℚ
  y : ℚ
  z : ℚ
deriving DecidableEq, Repr

/-- Torque analysis, the `{'pitch':…,'roll':…,'yaw':…}` result dictionary. -/
structure Torque where
  pitch : ℚ
  roll : ℚ
  yaw : ℚ
deriving DecidableEq, Repr

/-- `cargo_dict = {c['cargo_id']: c for c in cargo_data}` followed by
`cargo_dict.get(i)`: a Python dict comprehension keeps the LAST entry for a
duplicated key, so the lookup finds the last matching cargo item. -/
def cargo_lookup (cargo_data : List Cargo) (i : Nat) : Option Cargo :=
  cargo_data.reverse.find? (fun c => c.cargo_id == i)

/-- Accumulator loop of `calculate_center_of_gravity`: placements whose
cargo id does not resolve are skipped (`if not cargo: continue`); for the
rest the bounding-box center times the weight is accumulated per axis
together with the total weight.  State is
`(total_weight, weighted_x, weighted_y, weighted_z)`. -/
def cogAccum (cargo_data : List Cargo) :
    List Placement → ℚ → ℚ → ℚ → ℚ → ℚ × ℚ × ℚ × ℚ
  | [], tw, wx, wy, wz => (tw, wx, wy, wz)
  | p :: rest, tw, wx, wy, wz =>
    match cargo_lookup cargo_data p.cargo_id with
    | none => cogAccum cargo_data rest tw wx wy wz
    | some c =>
      cogAccum cargo_data rest (tw + c.weight)
        (wx + (p.position_x + c.length / 2) * c.weight)
        (wy + (p.position_y + c.width / 2) * c.weight)
        (wz + (p.position_z + c.height / 2) * c.weight)

/-- `PhysicsEngine.calculate_center_of_gravity`. -/
def calculate_center_of_gravity (placements : List Placement)
    (cargo_data : List Cargo) : COG :=
  let r := cogAccum cargo_data placements 0 0 0 0
  if r.1 = 0 then ⟨0, 0, 0⟩
  else ⟨r.2.1 / r.1, r.2.2.1 / r.1, r.2.2.2 / r.1⟩

/-- Python's `round(q, 2)` modelled as exact rational rounding to two
decimal places. -/
def round2 (q : ℚ) : ℚ := (round (q * 100) : ℚ) / 100

/-- `PhysicsEngine.calculate_stability_score`. -/
def calculate_stability_score (cog : COG) (v : Vehicle) : ℚ :=
  let ideal_x := v.length / 2
  let ideal_y := v.width / 2
  let ideal_z := v.height / 2
  let dev_x := if ideal_x > 0 then |cog.x - ideal_x| / ideal_x else 0
  let dev_y := if ideal_y > 0 then |cog.y - ideal_y| / ideal_y else 0
  let dev_z := if ideal_z > 0 then |cog.z - ideal_z| / ideal_z else 0
  let weighted_deviation := dev_x * (3/10) + dev_y * (5/10) + dev_z * (2/10)
  let score := max 0 (100 - weighted_deviation * 100)
  round2 score

/-- Accumulator loop of `calculate_torque`: same skip-on-unknown-id
resolution as the COG loop; accumulates `r_y*w`, `r_x*w`, `(r_x*r_y)*w`
(the variables `torque_x`, `torque_y`, `torque_z` of the source). -/
def torqueAccum (cargo_data : List Cargo) (cog : COG) :
    List Placement → ℚ → ℚ → ℚ → ℚ × ℚ × ℚ
  | [], tx, ty, tz => (tx, ty, tz)
  | p :: rest, tx, ty, tz =>
    match cargo_lookup cargo_data p.cargo_id with
    | none => torqueAccum cargo_data cog rest tx ty tz
    | some c =>
      let r_x := (p.position_x + c.length / 2) - cog.x
      let r_y := (p.position_y + c.width / 2) - cog.y
      torqueAccum cargo_data cog rest (tx + r_y * c.weight)
        (ty + r_x * c.weight) (tz + (r_x * r_y) * c.weight)

/-- `PhysicsEngine.calculate_torque`: absolute values of the accumulated
sums, returned as pitch/roll/yaw. -/
def calculate_torque (placements : List Placement) (cargo_data : List Cargo)
    (cog : COG) : Torque :=
  let r := torqueAccum cargo_data cog placements 0 0 0
  ⟨|r.1|, |r.2.1|, |r.2.2|⟩

/-- The warning messages of `generate_warnings`, with the numeric values the
Python f-strings would interpolate carried as payloads. -/
inductive WarningMsg where
  | criticalOverload (total_weight max_load : ℚ)
  | nearCapacity (percent : ℚ)
  | poorStability
  | suboptimalStability
  | lateralImbalance
  | longitudinalImbalance
  | highCog
  | excessiveRoll
  | excessivePitch
deriving DecidableEq, Repr

/-- `PhysicsEngine.generate_warnings`: sequential appends to the
`warnings` list, mirroring the Python statement order. -/
def generate_warnings (cog : COG) (stability_score : ℚ) (torque : Torque)
    (v : Vehicle) (total_weight : ℚ) : List WarningMsg :=
  let warnings : List WarningMsg := []
  let warnings :=
    if total_weight > v.max_load then
      warnings ++ [.criticalOverload total_weight v.max_load]
    else if total_weight > v.max_load * (9/10) then
      warnings ++ [.nearCapacity (total_weight / v.max_load * 100)]
    else warnings
  let warnings :=
    if stability_score < 50 then warnings ++ [.poorStability]
    else if stability_score < 70 then warnings ++ [.suboptimalStability]
    else warnings
  let vehicle_center_y := v.width / 2
  let lateral_deviation := |cog.y - vehicle_center_y|
  let warnings :=
    if lateral_deviation > v.width * (15/100) then
      warnings ++ [.lateralImbalance]
    else warnings
  let vehicle_center_x := v.length / 2
  let longitudinal_deviation := |cog.x - vehicle_center_x|
  let warnings :=
    if longitudinal_deviation > v.length * (2/10) then
      warnings ++ [.longitudinalImbalance]
    else warnings
  let warnings :=
    if cog.z > v.height * (6/10) then warnings ++ [.highCog] else warnings
  let max_acceptable_torque := total_weight * v.width * (1/10)
  let warnings :=
    if torque.roll > max_acceptable_torque then warnings ++ [.excessiveRoll]
    else warnings
  let warnings :=
    if torque.pitch > max_acceptable_torque then warnings ++ [.excessivePitch]
    else warnings
  warnings

/-- The comparison `sorted(cargo_items, key=weight, reverse=True)` keeps
`a` before `b` exactly when `b.weight ≤ a.weight`. -/
def cargoGE (a b : Cargo) : Prop := b.weight ≤ a.weight

instance : DecidableRel cargoGE := fun a b =>
  inferInstanceAs (Decidable (b.weight ≤ a.weight))

instance : IsTotal Cargo cargoGE := ⟨fun a b => le_total b.weight a.weight⟩

instance : IsTrans Cargo cargoGE :=
  ⟨fun _ _ _ hab hbc => le_trans hbc hab⟩

/-- `sorted(cargo_items, key=lambda x: x['weight'], reverse=True)`:
Python's stable sort, descending by weight, modelled as the stable
insertion sort under `cargoGE`. -/
def sorted_cargo (cargo_items : List Cargo) : List Cargo :=
  List.insertionSort cargoGE cargo_items

/-- Placement loop of `optimize_placement`: walks the weight-sorted cargo
with cursor state `(current_x, current_z, max_row_height)`, placing in the
current row when the item fits along x and otherwise starting a new row. -/
def placeLoop (v : Vehicle) :
    List Cargo → ℚ → ℚ → ℚ → List Placement
  | [], _, _, _ => []
  | g :: rest, current_x, current_z, max_row_height =>
    let target_y := v.width / 2 - g.width / 2
    let py := max 0 (min target_y (v.width - g.width))
    if current_x + g.length ≤ v.length then
      { cargo_id := g.cargo_id, position_x := current_x, position_y := py,
        position_z := current_z, rotation := 0 } ::
        placeLoop v rest (current_x + g.length) current_z
          (max max_row_height g.height)
    else
      { cargo_id := g.cargo_id, position_x := 0, position_y := py,
        position_z := current_z + max_row_height, rotation := 0 } ::
        placeLoop v rest g.length (current_z + max_row_height) g.height

/-- `PhysicsEngine.optimize_placement`. -/
def optimize_placement (cargo_items : List Cargo) (v : Vehicle) :
    List Placement :=
  placeLoop v (sorted_cargo cargo_items) 0 0 0

/-- The dictionary returned by `analyze_load`. -/
structure AnalysisResult where
  center_of_gravity : COG
  stability_score : ℚ
  torque_analysis : Torque
  warnings : List WarningMsg
  is_safe : Bool
  total_weight : ℚ
deriving DecidableEq, Repr

/-- `PhysicsEngine.analyze_load`. -/
def analyze_load (placements : List Placement) (cargo_data : List Cargo)
    (v : Vehicle) : AnalysisResult :=
  let cog := calculate_center_of_gravity placements cargo_data
  let stability_score := calculate_stability_score cog v
  let torque := calculate_torque placements cargo_data cog
  let total_weight := (cargo_data.map Cargo.weight).sum
  let warnings := generate_warnings cog stability_score torque v total_weight
  { center_of_gravity := cog
    stability_score := stability_score
    torque_analysis := torque
    warnings := warnings
    is_safe := decide (stability_score ≥ 70 ∧ total_weight ≤ v.max_load)
    total_weight := total_weight }

/-- The placements of a list that resolve to a cargo item, paired with the
item they resolve to (specification-side view of the skip-on-unknown-id
loops). -/
def resolved (placements : List Placement) (cargo_data : List Cargo) :
    List (Placement × Cargo) :=
  placements.filterMap
    (fun p => (cargo_lookup cargo_data p.cargo_id).map (fun c => (p, c)))

/-- Total weight of the resolved placements. -/
def resolvedWeight (placements : List Placement) (cargo_data : List Cargo) : ℚ :=
  ((resolved placements cargo_data).map (fun pc => pc.2.weight)).sum

/-- Weighted sum of bounding-box centers of the resolved placements along
one axis, given the projections of a placement position and a cargo
dimension for that axis. -/
def weightedSum (placements : List Placement) (cargo_data : List Cargo)
    (pos : Placement → ℚ) (dim : Cargo → ℚ) : ℚ :=
  ((resolved placements cargo_data).map
    (fun pc => (pos pc.1 + dim pc.2 / 2) * pc.2.weight)).sum

/-- Lever-arm sum accumulated into `torque_x` (returned as pitch):
`r_y × weight` over the resolved placements. -/
def pitchSum (placements : List Placement) (cargo_data : List Cargo)
    (cog : COG) : ℚ :=
  ((resolved placements cargo_data).map
    (fun pc => ((pc.1.position_y + pc.2.width / 2) - cog.y) * pc.2.weight)).sum

/-- Lever-arm sum accumulated into `torque_y` (returned as roll):
`r_x × weight` over the resolved placements. -/
def rollSum (placements : List Placement) (cargo_data : List Cargo)
    (cog : COG) : ℚ :=
  ((resolved placements cargo_data).map
    (fun pc => ((pc.1.position_x + pc.2.length / 2) - cog.x) * pc.2.weight)).sum

/-- Lever-arm sum accumulated into `torque_z` (returned as yaw):
`(r_x × r_y) × weight` over the resolved placements. -/
def yawSum (placements : List Placement) (cargo_data : List Cargo)
    (cog : COG) : ℚ :=
  ((resolved placements cargo_data).map
    (fun pc => (((pc.1.position_x + pc.2.length / 2) - cog.x) *
      ((pc.1.position_y + pc.2.width / 2) - cog.y)) * pc.2.weight)).sum

lemma cogAccum_eq (cd : List Cargo) :
    ∀ (l : List Placement) (tw wx wy wz : ℚ),
      cogAccum cd l tw wx wy wz =
        (tw + resolvedWeight l cd,
         wx + weightedSum l cd Placement.position_x Cargo.length,
         wy + weightedSum l cd Placement.position_y Cargo.width,
         wz + weightedSum l cd Placement.position_z Cargo.height)
  | [], tw, wx, wy, wz => by
      simp [cogAccum, resolvedWeight, weightedSum, resolved]
  | p :: rest, tw, wx, wy, wz => by
      rw [cogAccum]
      cases h : cargo_lookup cd p.cargo_id with
      | none =>
          dsimp only
          rw [cogAccum_eq cd rest]
          simp [resolvedWeight, weightedSum, resolved, List.filterMap_cons, h]
      | some c =>
          dsimp only
          rw [cogAccum_eq cd rest]
          simp only [resolvedWeight, weightedSum, resolved,
            List.filterMap_cons, h, Option.map_some', List.map_cons,
            List.sum_cons, Prod.mk.injEq]
          refine ⟨by ring, by ring, by ring, by ring⟩

lemma torqueAccum_eq (cd : List Cargo) (cog : COG) :
    ∀ (l : List Placement) (tx ty tz : ℚ),
      torqueAccum cd cog l tx ty tz =
        (tx + pitchSum l cd cog, ty + rollSum l cd cog, tz + yawSum l cd cog)
  | [], tx, ty, tz => by
      simp [torqueAccum, pitchSum, rollSum, yawSum, resolved]
  | p :: rest, tx, ty, tz => by
      rw [torqueAccum]
      cases h : cargo_lookup cd p.cargo_id with
      | none =>
          dsimp only
          rw [torqueAccum_eq cd cog rest]
          simp [pitchSum, rollSum, yawSum, resolved, List.filterMap_cons, h]
      | some c =>
          dsimp only
          rw [torqueAccum_eq cd cog rest]
          simp only [pitchSum, rollSum, yawSum, resolved,
            List.filterMap_cons, h, Option.map_some', List.map_cons,
            List.sum_cons, Prod.mk.injEq]
          refine ⟨by ring, by ring, by ring⟩

/-- C1: calculate_center_of_gravity returns the weighted centroid of the
resolved placements: placements with an unknown cargo id are skipped (they
appear in neither sum), each resolved placement contributes its cargo's
bounding-box center (position + dimension/2 per axis) weighted by its
weight, and each axis of the result is the accumulated weighted sum
divided by the accumulated weight. -/
theorem calculate_center_of_gravity_spec (placements : List Placement)
    (cargo_data : List Cargo)
    (h : resolvedWeight placements cargo_data ≠ 0) :
    calculate_center_of_gravity placements cargo_data =
      ⟨weightedSum placements cargo_data Placement.position_x Cargo.length /
         resolvedWeight placements cargo_data,
       weightedSum placements cargo_data Placement.position_y Cargo.width /
         resolvedWeight placements cargo_data,
       weightedSum placements cargo_data Placement.position_z Cargo.height /
         resolvedWeight placements cargo_data⟩ := by
  unfold calculate_center_of_gravity
  rw [cogAccum_eq]
  simp [h]

/-- C7: with an empty placement list, or when no placement's cargo id
resolves, or when the accumulated weight of the resolved placements is 0,
calculate_center_of_gravity returns exactly (0, 0, 0). -/
theorem calculate_center_of_gravity_degenerate (placements : List Placement)
    (cargo_data : List Cargo)
    (h : placements = [] ∨
      (∀ p ∈ placements, cargo_lookup cargo_data p.cargo_id = none) ∨
      resolvedWeight placements cargo_data = 0) :
    calculate_center_of_gravity placements cargo_data = ⟨0, 0, 0⟩ := by
  have hz : resolvedWeight placements cargo_data = 0 := by
    rcases h with h | h | h
    · subst h; simp [resolvedWeight, resolved]
    · have hres : resolved placements cargo_data = [] := by
        simp only [resolved, List.filterMap_eq_nil_iff]
        intro p hp
        simp [h p hp]
      simp [resolvedWeight, hres]
    · exact h
  unfold calculate_center_of_gravity
  rw [cogAccum_eq]
  simp [hz]

theorem calculate_center_of_gravity_degenerate_witness :
    (([] : List Placement) = [] ∨
      (∀ p ∈ ([] : List Placement),
        cargo_lookup [⟨1, 10, 2, 2, 2⟩] p.cargo_id = none) ∨
      resolvedWeight [] [⟨1, 10, 2, 2, 2⟩] = 0) ∧
    calculate_center_of_gravity [] [⟨1, 10, 2, 2, 2⟩] = ⟨0, 0, 0⟩ :=
  ⟨Or.inl rfl,
   calculate_center_of_gravity_degenerate [] [⟨1, 10, 2, 2, 2⟩] (Or.inl rfl)⟩

theorem calculate_center_of_gravity_spec_witness :
    resolvedWeight [⟨1, 0, 0, 0, 0⟩] [⟨1, 10, 2, 2, 2⟩] ≠ 0 ∧
    calculate_center_of_gravity [⟨1, 0, 0, 0, 0⟩] [⟨1, 10, 2, 2, 2⟩] =
      ⟨weightedSum [⟨1, 0, 0, 0, 0⟩] [⟨1, 10, 2, 2, 2⟩]
         Placement.position_x Cargo.length /
         resolvedWeight [⟨1, 0, 0, 0, 0⟩] [⟨1, 10, 2, 2, 2⟩],
       weightedSum [⟨1, 0, 0, 0, 0⟩] [⟨1, 10, 2, 2, 2⟩]
         Placement.position_y Cargo.width /
         resolvedWeight [⟨1, 0, 0, 0, 0⟩] [⟨1, 10, 2, 2, 2⟩],
       weightedSum [⟨1, 0, 0, 0, 0⟩] [⟨1, 10, 2, 2, 2⟩]
         Placement.position_z Cargo.height /
         resolvedWeight [⟨1, 0, 0, 0, 0⟩] [⟨1, 10, 2, 2, 2⟩]⟩ :=
  ⟨by norm_num [resolvedWeight, resolved, cargo_lookup, List.filterMap_cons],
   calculate_center_of_gravity_spec [⟨1, 0, 0, 0, 0⟩] [⟨1, 10, 2, 2, 2⟩]
     (by norm_num [resolvedWeight, resolved, cargo_lookup, List.filterMap_cons])⟩

/-- C6: calculate_torque returns pitch = |Σ r_y·w|, roll = |Σ r_x·w| and
yaw = |Σ (r_x·r_y)·w| over the resolved placements (r measured from the
cargo bounding-box center to the COG per axis), and all three returned
values are non-negative. -/
theorem calculate_torque_spec (placements : List Placement)
    (cargo_data : List Cargo) (cog : COG) :
    calculate_torque placements cargo_data cog =
      ⟨|pitchSum placements cargo_data cog|,
       |rollSum placements cargo_data cog|,
       |yawSum placements cargo_data cog|⟩
    ∧ 0 ≤ (calculate_torque placements cargo_data cog).pitch
    ∧ 0 ≤ (calculate_torque placements cargo_data cog).roll
    ∧ 0 ≤ (calculate_torque placements cargo_data cog).yaw := by
  have h : calculate_torque placements cargo_data cog =
      ⟨|pitchSum placements cargo_data cog|,
       |rollSum placements cargo_data cog|,
       |yawSum placements cargo_data cog|⟩ := by
    unfold calculate_torque
    rw [torqueAccum_eq]
    simp
  refine ⟨h, ?_, ?_, ?_⟩ <;> rw [h] <;> exact abs_nonneg _

/-- C5: the total_weight field of analyze_load is the sum of the weights
of all items of the cargo_data argument, for every placement list (whether
or not items are referenced by a placement, and whatever unknown cargo ids
the placements mention). -/
theorem analyze_load_total_weight (placements : List Placement)
    (cargo_data : List Cargo) (v : Vehicle) :
    (analyze_load placements cargo_data v).total_weight =
      (cargo_data.map Cargo.weight).sum := rfl

/-- C2: the is_safe field of analyze_load is true exactly when the
returned stability_score is at least 70 and the returned total_weight is
at most the vehicle's max_load; no other returned field enters the
condition. -/
theorem analyze_load_is_safe (placements : List Placement)
    (cargo_data : List Cargo) (v : Vehicle) :
    (analyze_load placements cargo_data v).is_safe = true ↔
      ((analyze_load placements cargo_data v).stability_score ≥ 70 ∧
       (analyze_load placements cargo_data v).total_weight ≤ v.max_load) := by
  simp [analyze_load]

lemma round2_mono {a b : ℚ} (h : a ≤ b) : round2 a ≤ round2 b := by
  unfold round2
  have h1 : round (a * 100) ≤ round (b * 100) := by
    rw [round_eq, round_eq]
    exact Int.floor_le_floor (by linarith)
  have h2 : ((round (a * 100) : ℤ) : ℚ) ≤ ((round (b * 100) : ℤ) : ℚ) := by
    exact_mod_cast h1
  linarith

lemma round2_nonneg {a : ℚ} (h : 0 ≤ a) : 0 ≤ round2 a := by
  unfold round2
  have h1 : round (0 : ℚ) ≤ round (a * 100) := by
    rw [round_eq, round_eq]
    exact Int.floor_le_floor (by linarith)
  rw [round_zero] at h1
  have h2 : (0 : ℚ) ≤ ((round (a * 100) : ℤ) : ℚ) := by exact_mod_cast h1
  linarith

lemma round2_le_100 {a : ℚ} (h : a ≤ 100) : round2 a ≤ 100 := by
  unfold round2
  have h0 : round ((10000 : ℤ) : ℚ) = 10000 := round_intCast 10000
  have h1 : round (a * 100) ≤ round (((10000 : ℤ) : ℚ)) := by
    rw [round_eq, round_eq]
    exact Int.floor_le_floor (by push_cast; linarith)
  rw [h0] at h1
  have h2 : ((round (a * 100) : ℤ) : ℚ) ≤ 10000 := by exact_mod_cast h1
  linarith

/-- C3: with positive vehicle dimensions, calculate_stability_score is
exactly the rounding to two decimals of
max(0, 100 − 100·(0.3·dev_x + 0.5·dev_y + 0.2·dev_z)), where each
deviation is |cog − ideal| / ideal with ideal = dimension/2, and the
result always lies in [0, 100]. -/
theorem calculate_stability_score_spec (cog : COG) (v : Vehicle)
    (hl : 0 < v.length) (hw : 0 < v.width) (hh : 0 < v.height) :
    calculate_stability_score cog v =
      round2 (max 0 (100 -
        (|cog.x - v.length / 2| / (v.length / 2) * (3/10) +
         |cog.y - v.width / 2| / (v.width / 2) * (5/10) +
         |cog.z - v.height / 2| / (v.height / 2) * (2/10)) * 100))
    ∧ 0 ≤ calculate_stability_score cog v
    ∧ calculate_stability_score cog v ≤ 100 := by
  have hx : v.length / 2 > 0 := by linarith
  have hy : v.width / 2 > 0 := by linarith
  have hz : v.height / 2 > 0 := by linarith
  have heq : calculate_stability_score cog v =
      round2 (max 0 (100 -
        (|cog.x - v.length / 2| / (v.length / 2) * (3/10) +
         |cog.y - v.width / 2| / (v.width / 2) * (5/10) +
         |cog.z - v.height / 2| / (v.height / 2) * (2/10)) * 100)) := by
    simp only [calculate_stability_score]
    rw [if_pos hx, if_pos hy, if_pos hz]
  refine ⟨heq, ?_, ?_⟩
  · rw [heq]
    exact round2_nonneg (le_max_left 0 _)
  · rw [heq]
    apply round2_le_100
    have d1 : 0 ≤ |cog.x - v.length / 2| / (v.length / 2) := by positivity
    have d2 : 0 ≤ |cog.y - v.width / 2| / (v.width / 2) := by positivity
    have d3 : 0 ≤ |cog.z - v.height / 2| / (v.height / 2) := by positivity
    apply max_le (by norm_num)
    nlinarith

theorem calculate_stability_score_spec_witness :
    (0 < Vehicle.length ⟨100, 10, 4, 3⟩ ∧ 0 < Vehicle.width ⟨100, 10, 4, 3⟩ ∧
      0 < Vehicle.height ⟨100, 10, 4, 3⟩) ∧
    (calculate_stability_score ⟨5, 2, 3/2⟩ ⟨100, 10, 4, 3⟩ =
      round2 (max 0 (100 -
        (|(5 : ℚ) - (10 : ℚ) / 2| / ((10 : ℚ) / 2) * (3/10) +
         |(2 : ℚ) - (4 : ℚ) / 2| / ((4 : ℚ) / 2) * (5/10) +
         |(3/2 : ℚ) - (3 : ℚ) / 2| / ((3 : ℚ) / 2) * (2/10)) * 100))
    ∧ 0 ≤ calculate_stability_score ⟨5, 2, 3/2⟩ ⟨100, 10, 4, 3⟩
    ∧ calculate_stability_score ⟨5, 2, 3/2⟩ ⟨100, 10, 4, 3⟩ ≤ 100) :=
  ⟨⟨by norm_num, by norm_num, by norm_num⟩,
   calculate_stability_score_spec ⟨5, 2, 3/2⟩ ⟨100, 10, 4, 3⟩
     (by norm_num) (by norm_num) (by norm_num)⟩

/-- C9: holding cog.x, cog.z and the vehicle fixed, a COG with larger
lateral deviation |cog.y − width/2| never receives a strictly higher
stability score: calculate_stability_score is non-increasing in the
lateral deviation. -/
theorem calculate_stability_score_lateral_mono (v : Vehicle) (c1 c2 : COG)
    (hx : c1.x = c2.x) (hz : c1.z = c2.z)
    (h : |c1.y - v.width / 2| ≤ |c2.y - v.width / 2|) :
    calculate_stability_score c2 v ≤ calculate_stability_score c1 v := by
  simp only [calculate_stability_score]
  rw [hx, hz]
  apply round2_mono
  apply max_le_max le_rfl
  have hdev : (if v.width / 2 > 0 then |c1.y - v.width / 2| / (v.width / 2) else 0) ≤
      (if v.width / 2 > 0 then |c2.y - v.width / 2| / (v.width / 2) else 0) := by
    split_ifs with hw
    · gcongr
    · exact le_rfl
  linarith

theorem calculate_stability_score_lateral_mono_witness :
    ((COG.x ⟨5, 2, 3/2⟩ = COG.x ⟨5, 3, 3/2⟩) ∧
     (COG.z ⟨5, 2, 3/2⟩ = COG.z ⟨5, 3, 3/2⟩) ∧
     |COG.y ⟨5, 2, 3/2⟩ - Vehicle.width ⟨100, 10, 4, 3⟩ / 2| ≤
       |COG.y ⟨5, 3, 3/2⟩ - Vehicle.width ⟨100, 10, 4, 3⟩ / 2|) ∧
    calculate_stability_score ⟨5, 3, 3/2⟩ ⟨100, 10, 4, 3⟩ ≤
      calculate_stability_score ⟨5, 2, 3/2⟩ ⟨100, 10, 4, 3⟩ :=
  ⟨⟨rfl, rfl, by norm_num⟩,
   calculate_stability_score_lateral_mono ⟨100, 10, 4, 3⟩ ⟨5, 2, 3/2⟩
     ⟨5, 3, 3/2⟩ rfl rfl (by norm_num)⟩

lemma append_ite1 {α : Type} (c : Prop) [Decidable c] (w a : List α) :
    (if c then w ++ a else w) = w ++ (if c then a else []) := by
  split_ifs <;> simp

lemma append_ite2 {α : Type} (c c2 : Prop) [Decidable c] [Decidable c2]
    (w a b : List α) :
    (if c then w ++ a else if c2 then w ++ b else w) =
      w ++ (if c then a else if c2 then b else []) := by
  split_ifs <;> simp

lemma append_ite_both {α : Type} (c : Prop) [Decidable c] (w a b : List α) :
    (if c then w ++ a else w ++ b) = w ++ (if c then a else b) := by
  split_ifs <;> rfl

lemma ite_singleton_eq_nil {α : Type} (c : Prop) [Decidable c] (x : α) :
    (if c then [x] else []) = [] ↔ ¬ c := by
  split_ifs <;> simp_all

lemma ite2_singleton_eq_nil {α : Type} (c c2 : Prop) [Decidable c]
    [Decidable c2] (x y : α) :
    (if c then [x] else if c2 then [y] else []) = [] ↔ ¬ c ∧ ¬ c2 := by
  split_ifs <;> simp_all

/-- C4: generate_warnings is the concatenation, in the fixed order
weight, stability, lateral, longitudinal, height, roll torque, pitch
torque, of seven independently evaluated segments (the weight pair and
the stability pair each being an if/else-if), with no early exit; and the
returned list is empty exactly when none of the nine threshold conditions
holds. -/
theorem generate_warnings_spec (cog : COG) (s : ℚ) (tq : Torque)
    (v : Vehicle) (tw : ℚ) :
    (generate_warnings cog s tq v tw =
      (if tw > v.max_load then [WarningMsg.criticalOverload tw v.max_load]
       else if tw > v.max_load * (9/10) then
         [WarningMsg.nearCapacity (tw / v.max_load * 100)]
       else [])
      ++ (if s < 50 then [WarningMsg.poorStability]
          else if s < 70 then [WarningMsg.suboptimalStability] else [])
      ++ (if |cog.y - v.width / 2| > v.width * (15/100) then
            [WarningMsg.lateralImbalance] else [])
      ++ (if |cog.x - v.length / 2| > v.length * (2/10) then
            [WarningMsg.longitudinalImbalance] else [])
      ++ (if cog.z > v.height * (6/10) then [WarningMsg.highCog] else [])
      ++ (if tq.roll > tw * v.width * (1/10) then
            [WarningMsg.excessiveRoll] else [])
      ++ (if tq.pitch > tw * v.width * (1/10) then
            [WarningMsg.excessivePitch] else []))
    ∧ (generate_warnings cog s tq v tw = [] ↔
        ¬ tw > v.max_load ∧ ¬ tw > v.max_load * (9/10) ∧ ¬ s < 50 ∧
        ¬ s < 70 ∧ ¬ |cog.y - v.width / 2| > v.width * (15/100) ∧
        ¬ |cog.x - v.length / 2| > v.length * (2/10) ∧
        ¬ cog.z > v.height * (6/10) ∧
        ¬ tq.roll > tw * v.width * (1/10) ∧
        ¬ tq.pitch > tw * v.width * (1/10)) := by
  have heq : generate_warnings cog s tq v tw =
      (if tw > v.max_load then [WarningMsg.criticalOverload tw v.max_load]
       else if tw > v.max_load * (9/10) then
         [WarningMsg.nearCapacity (tw / v.max_load * 100)]
       else [])
      ++ (if s < 50 then [WarningMsg.poorStability]
          else if s < 70 then [WarningMsg.suboptimalStability] else [])
      ++ (if |cog.y - v.width / 2| > v.width * (15/100) then
            [WarningMsg.lateralImbalance] else [])
      ++ (if |cog.x - v.length / 2| > v.length * (2/10) then
            [WarningMsg.longitudinalImbalance] else [])
      ++ (if cog.z > v.height * (6/10) then [WarningMsg.highCog] else [])
      ++ (if tq.roll > tw * v.width * (1/10) then
            [WarningMsg.excessiveRoll] else [])
      ++ (if tq.pitch > tw * v.width * (1/10) then
            [WarningMsg.excessivePitch] else []) := by
    simp only [generate_warnings, append_ite1, append_ite2,
      append_ite_both, List.nil_append, List.append_assoc]
  refine ⟨heq, ?_⟩
  rw [heq]
  simp only [List.append_eq_nil, ite_singleton_eq_nil,
    ite2_singleton_eq_nil, and_assoc]

lemma orderedInsert_filter_weight (a : Cargo) (w : ℚ) :
    ∀ l : List Cargo,
      (List.orderedInsert cargoGE a l).filter (fun g => decide (g.weight = w)) =
        if a.weight = w then
          a :: l.filter (fun g => decide (g.weight = w))
        else l.filter (fun g => decide (g.weight = w))
  | [] => by
      simp only [List.orderedInsert]
      by_cases ha : a.weight = w <;> simp [List.filter, ha]
  | b :: l => by
      by_cases hr : cargoGE a b
      · rw [List.orderedInsert, if_pos hr]
        by_cases ha : a.weight = w <;> simp [List.filter_cons, ha]
      · rw [List.orderedInsert, if_neg hr]
        have hlt : a.weight < b.weight := lt_of_not_le hr
        by_cases ha : a.weight = w
        · have hb : ¬ b.weight = w := by
            rw [← ha]
            exact ne_of_gt hlt
          simp [List.filter_cons, ha, hb, orderedInsert_filter_weight a w l]
        · by_cases hb : b.weight = w <;>
            simp [List.filter_cons, ha, hb, orderedInsert_filter_weight a w l]

lemma sorted_cargo_filter_weight (w : ℚ) :
    ∀ l : List Cargo,
      (sorted_cargo l).filter (fun g => decide (g.weight = w)) =
        l.filter (fun g => decide (g.weight = w))
  | [] => rfl
  | a :: l => by
      rw [sorted_cargo, List.insertionSort, ← sorted_cargo,
        orderedInsert_filter_weight]
      by_cases ha : a.weight = w <;>
        simp [List.filter_cons, ha, sorted_cargo_filter_weight w l]

lemma placeLoop_map_cargo_id (v : Vehicle) :
    ∀ (l : List Cargo) (cx cz mrh : ℚ),
      (placeLoop v l cx cz mrh).map Placement.cargo_id =
        l.map Cargo.cargo_id
  | [], _, _, _ => rfl
  | g :: rest, cx, cz, mrh => by
      rw [placeLoop]
      split_ifs <;> simp [placeLoop_map_cargo_id v rest]

lemma placeLoop_mem_spec (v : Vehicle) :
    ∀ (l : List Cargo) (cx cz mrh : ℚ) (p : Placement),
      p ∈ placeLoop v l cx cz mrh →
      ∃ g ∈ l, p.cargo_id = g.cargo_id ∧ p.rotation = 0 ∧
        p.position_y = max 0 (min (v.width / 2 - g.width / 2) (v.width - g.width))
  | [], _, _, _, p => by simp [placeLoop]
  | g :: rest, cx, cz, mrh, p => by
      rw [placeLoop]
      split_ifs with hfit <;>
      · intro hp
        rcases List.mem_cons.mp hp with h | h
        · exact ⟨g, List.mem_cons_self g rest, by subst h; simp⟩
        · obtain ⟨g2, hg2, hspec⟩ := placeLoop_mem_spec v rest _ _ _ p h
          exact ⟨g2, List.mem_cons_of_mem g hg2, hspec⟩

/-- C8: for a non-empty cargo list of positive-valued items,
optimize_placement emits exactly one placement per input item (the
cargo-id multiset is preserved), walks the items in the order of the
stable weight-descending sort (sorted order is weight non-increasing and
equal-weight items keep their original relative order, here expressed as
preservation of every equal-weight subsequence), and every emitted
placement has rotation 0. -/
theorem optimize_placement_spec (c : List Cargo) (v : Vehicle)
    (hne : c ≠ [])
    (hpos : ∀ g ∈ c,
      0 < g.weight ∧ 0 < g.length ∧ 0 < g.width ∧ 0 < g.height) :
    (optimize_placement c v).map Placement.cargo_id =
        (sorted_cargo c).map Cargo.cargo_id
    ∧ Multiset.ofList ((optimize_placement c v).map Placement.cargo_id) =
        Multiset.ofList (c.map Cargo.cargo_id)
    ∧ List.Sorted cargoGE (sorted_cargo c)
    ∧ (∀ w : ℚ, (sorted_cargo c).filter (fun g => decide (g.weight = w)) =
        c.filter (fun g => decide (g.weight = w)))
    ∧ ∀ p ∈ optimize_placement c v, p.rotation = 0 := by
  have hmap : (optimize_placement c v).map Placement.cargo_id =
      (sorted_cargo c).map Cargo.cargo_id :=
    placeLoop_map_cargo_id v (sorted_cargo c) 0 0 0
  refine ⟨hmap, ?_, ?_, ?_, ?_⟩
  · rw [hmap]
    exact Multiset.coe_eq_coe.mpr
      (List.Perm.map Cargo.cargo_id (List.perm_insertionSort cargoGE c))
  · exact List.sorted_insertionSort cargoGE c
  · exact fun w => sorted_cargo_filter_weight w c
  · intro p hp
    obtain ⟨g, _, _, hrot, _⟩ :=
      placeLoop_mem_spec v (sorted_cargo c) 0 0 0 p hp
    exact hrot

theorem optimize_placement_spec_witness :
    (([⟨1, 5, 2, 2, 1⟩, ⟨2, 7, 3, 2, 1⟩] : List Cargo) ≠ [] ∧
     (∀ g ∈ ([⟨1, 5, 2, 2, 1⟩, ⟨2, 7, 3, 2, 1⟩] : List Cargo),
       0 < g.weight ∧ 0 < g.length ∧ 0 < g.width ∧ 0 < g.height)) ∧
    ((optimize_placement [⟨1, 5, 2, 2, 1⟩, ⟨2, 7, 3, 2, 1⟩] ⟨100, 10, 4, 3⟩).map
        Placement.cargo_id =
      (sorted_cargo [⟨1, 5, 2, 2, 1⟩, ⟨2, 7, 3, 2, 1⟩]).map Cargo.cargo_id
    ∧ Multiset.ofList
        ((optimize_placement [⟨1, 5, 2, 2, 1⟩, ⟨2, 7, 3, 2, 1⟩]
          ⟨100, 10, 4, 3⟩).map Placement.cargo_id) =
        Multiset.ofList
          (([⟨1, 5, 2, 2, 1⟩, ⟨2, 7, 3, 2, 1⟩] : List Cargo).map Cargo.cargo_id)
    ∧ List.Sorted cargoGE (sorted_cargo [⟨1, 5, 2, 2, 1⟩, ⟨2, 7, 3, 2, 1⟩])
    ∧ (∀ w : ℚ,
        (sorted_cargo [⟨1, 5, 2, 2, 1⟩, ⟨2, 7, 3, 2, 1⟩]).filter
          (fun g => decide (g.weight = w)) =
        ([⟨1, 5, 2, 2, 1⟩, ⟨2, 7, 3, 2, 1⟩] : List Cargo).filter
          (fun g => decide (g.weight = w)))
    ∧ ∀ p ∈ optimize_placement [⟨1, 5, 2, 2, 1⟩, ⟨2, 7, 3, 2, 1⟩]
        ⟨100, 10, 4, 3⟩, p.rotation = 0) :=
  ⟨⟨List.cons_ne_nil _ _, by norm_num⟩,
   optimize_placement_spec [⟨1, 5, 2, 2, 1⟩, ⟨2, 7, 3, 2, 1⟩] ⟨100, 10, 4, 3⟩
     (List.cons_ne_nil _ _) (by norm_num)⟩

/-- C10: when every cargo item is no wider than the vehicle, every
placement returned by optimize_placement is laterally contained:
position_y is non-negative and position_y plus the width of the item the
placement references stays within the vehicle width. -/
theorem optimize_placement_lateral_containment (c : List Cargo)
    (v : Vehicle) (h : ∀ g ∈ c, g.width ≤ v.width) :
    ∀ p ∈ optimize_placement c v,
      0 ≤ p.position_y ∧
      ∃ g ∈ c, p.cargo_id = g.cargo_id ∧ p.position_y + g.width ≤ v.width := by
  intro p hp
  obtain ⟨g, hg, hid, _, hpy⟩ :=
    placeLoop_mem_spec v (sorted_cargo c) 0 0 0 p hp
  have hgc : g ∈ c := (List.perm_insertionSort cargoGE c).mem_iff.mp hg
  have hw := h g hgc
  constructor
  · rw [hpy]
    exact le_max_left 0 _
  · refine ⟨g, hgc, hid, ?_⟩
    have h1 : p.position_y ≤ v.width - g.width := by
      rw [hpy]
      apply max_le
      · linarith
      · exact min_le_right _ _
    linarith

theorem optimize_placement_lateral_containment_witness :
    (∀ g ∈ ([⟨1, 5, 2, 2, 1⟩, ⟨2, 7, 3, 2, 1⟩] : List Cargo),
      g.width ≤ Vehicle.width ⟨100, 10, 4, 3⟩) ∧
    (∀ p ∈ optimize_placement [⟨1, 5, 2, 2, 1⟩, ⟨2, 7, 3, 2, 1⟩]
        ⟨100, 10, 4, 3⟩,
      0 ≤ p.position_y ∧
      ∃ g ∈ ([⟨1, 5, 2, 2, 1⟩, ⟨2, 7, 3, 2, 1⟩] : List Cargo),
        p.cargo_id = g.cargo_id ∧
        p.position_y + g.width ≤ Vehicle.width ⟨100, 10, 4, 3⟩) :=
  ⟨by norm_num,
   optimize_placement_lateral_containment
     [⟨1, 5, 2, 2, 1⟩, ⟨2, 7, 3, 2, 1⟩] ⟨100, 10, 4, 3⟩ (by norm_num)⟩
